import Mathlib

/-!
Verification development for the themepro-safe-exporter repository.

The definitions below are a shallow embedding of the JavaScript sources:

* `exporter_v2.js`   — URL resolution (`toAbsolute`), asset type detection
  (`isLikelyImage` …), the download/disposition loop of `main` (`processAsset`),
  the DOM rewrite pass (`rewriteAttr`, `rewriteSrcset`, `rewritePass`) and the
  multi-viewport render loop (`renderAndCollect`, `renderMultiViewport`).
* `post-export-auditor.js` — the usage classifier of `generateReports`
  (`usedFilesOf`, `unusedFilesOf`, `generateReport`).
* `cleanup-unused.js` (the unnamed source file) and `auto-export.js` — the two
  prune loops (`UnusedFilesCleanup.cleanup`, `AutoExporter.step3Cleanup`).

File systems and JS `Map`s are modelled as association lists from strings to
strings; byte buffers are represented by their base64 rendering (the bytes are
opaque to all the control flow that is verified here); machine integers are
`Nat` (all sizes in the sources are nonnegative and far from 2^53).
-/

/-- JS `Math.round` applied to the nonnegative rational `n / d`, that is
`⌊n / d + 1 / 2⌋` (JS rounds half away from zero, which for nonnegative input
is half up).  Used by the auditor for `Math.round(size / 1024)` and
`Math.round((unusedSize / totalSize) * 100)`.  For `d = 0` JS produces `NaN`;
this model then returns `0`, and every theorem touching that case carries a
positivity hypothesis. -/
def jsRound (n d : Nat) : Nat := (2 * n + d) / (2 * d)

/-- Association list from string keys to string values.  Models both a JS
`Map`/object and a directory tree (relative file path to file contents). -/
abbrev SMap := List (String × String)

/-- First value bound to key `p`, like `Map.get` / `fs` lookup. -/
def lookupA : SMap → String → Option String
  | [], _ => none
  | (k, v) :: rest, p => if k = p then some v else lookupA rest p

/-- Remove every binding of key `p`, like `fs.remove` of a file. -/
def eraseA : SMap → String → SMap
  | [], _ => []
  | (k, v) :: rest, p => if k = p then eraseA rest p else (k, v) :: eraseA rest p

/-- Bind key `p` to `v`, replacing an existing binding, like `Map.set` or an
overwriting `fs.copy`. -/
def setA (m : SMap) (p v : String) : SMap := (p, v) :: eraseA m p

/-! ### Character-list string helpers

The JS sources use `split`, `trim`, `includes`, `startsWith` … on strings.
These are modelled over `List Char` so that concrete examples reduce well. -/

/-- Prefix test: `listBegins cs pre` is true when `pre` is a prefix of `cs`. -/
def listBegins : List Char → List Char → Bool
  | _, [] => true
  | [], _ :: _ => false
  | c :: cs, d :: ds => c = d && listBegins cs ds

/-- Occurrence test: `seqOccurs pat cs` is true when `pat` occurs contiguously in `cs`
(JS `String.includes`). -/
def seqOccurs (pat : List Char) : List Char → Bool
  | [] => listBegins [] pat
  | c :: cs => listBegins (c :: cs) pat || seqOccurs pat cs

/-- JS `String.split` with a one-character separator.  `"".split(sep)` is
`[""]`, like in JS. -/
def splitOnChar (sep : Char) : List Char → List (List Char)
  | [] => [[]]
  | c :: cs =>
    let r := splitOnChar sep cs
    if c = sep then [] :: r
    else
      match r with
      | [] => [[c]]
      | h :: t => (c :: h) :: t

/-- String-level wrapper for `splitOnChar`. -/
def strSplit (sep : Char) (s : String) : List String :=
  (splitOnChar sep s.data).map String.mk

/-- JS `String.trim` (whitespace stripped from both ends). -/
def strTrim (s : String) : String :=
  String.mk (((s.data.dropWhile Char.isWhitespace).reverse.dropWhile Char.isWhitespace).reverse)

/-- JS `String.startsWith`. -/
def strStarts (s pre : String) : Bool := listBegins s.data pre.data

/-- JS `String.endsWith`. -/
def strEnds (s suf : String) : Bool := listBegins s.data.reverse suf.data.reverse

/-- Drop the first `k` characters of a string (JS `String.slice(k)`). -/
def strDrop (s : String) (k : Nat) : String := String.mk (s.data.drop k)

/-- JS `Array.join(sep)`. -/
def strJoin (sep : String) : List String → String
  | [] => ""
  | [s] => s
  | s :: rest => s ++ sep ++ strJoin sep rest

/-- ASCII lower-casing of a string (JS `String.toLowerCase` on the URL
alphabet). -/
def lowerStr (s : String) : String := String.mk (s.data.map Char.toLower)

/-! ### URL model (`exporter_v2.js` lines 61–83)

`new URL(u)` succeeds exactly when `u` carries a scheme; `new URL(u, base)`
resolves `u` against a hierarchical base.  The model below covers the
hierarchical (`scheme://authority/path?query#fragment`) URLs the exporter
actually handles; percent-encoding and host-case normalisation performed by
WHATWG parsers are left as-is since none of the verified control flow looks
inside authority strings. -/

/-- Valid trailing characters of a URL scheme. -/
def validSchemeChars (s : List Char) : Bool :=
  s.all (fun c => c.isAlphanum || c = '+' || c = '-' || c = '.')

/-- Valid URL scheme: one alphabetic character then alphanumerics or `+ - .`. -/
def validScheme (s : String) : Bool :=
  match s.data with
  | [] => false
  | c :: rest => c.isAlpha && validSchemeChars rest

/-- Scheme of `u` when `u` is an absolute URL; `none` otherwise.  This is the
model of the source's `isAbsolute` test `try { new URL(u); return true }`. -/
def schemeOf (u : String) : Option String :=
  match strSplit ':' u with
  | s :: _ :: _ => if validScheme s then some s else none
  | _ => none

/-- Split a character list at the first `?` or `#` (path versus
query/fragment suffix). -/
def splitAtQueryFrag (cs : List Char) : List Char × List Char :=
  (cs.takeWhile (fun c => !(c = '?' || c = '#')),
   cs.dropWhile (fun c => !(c = '?' || c = '#')))

/-- One step of dot-segment removal over path segments. -/
def dotSegStep (acc : List String) (s : String) : List String :=
  if s = "." then acc
  else if s = ".." then acc.dropLast
  else acc ++ [s]

/-- Dot-segment removal on an absolute URL path (one starting with `/`), as
performed by WHATWG URL normalisation. -/
def removeDotSegments (p : String) : String :=
  "/" ++ strJoin "/" (((strSplit '/' p).drop 1).foldl dotSegStep [])

/-- Parsed hierarchical URL. -/
structure UrlParts where
  scheme : String
  authority : String
  path : String
  suffix : String
deriving DecidableEq, Repr

/-- Parse a hierarchical absolute URL `scheme://authority/path?query#frag`.
Non-hierarchical URLs (such as `data:` URIs) yield `none`; the sources only
ever resolve against hierarchical `http(s)` bases. -/
def parseUrl (u : String) : Option UrlParts :=
  match schemeOf u with
  | none => none
  | some sch =>
    let rest := strDrop u (sch.length + 1)
    if strStarts rest "//" then
      let afterAuth := (strDrop rest 2).data
      let auth := afterAuth.takeWhile (fun c => !(c = '/' || c = '?' || c = '#'))
      let tail := afterAuth.dropWhile (fun c => !(c = '/' || c = '?' || c = '#'))
      let pq := splitAtQueryFrag tail
      let rawPath := String.mk pq.1
      some { scheme := sch
             authority := String.mk auth
             path := if rawPath = "" then "/" else removeDotSegments rawPath
             suffix := String.mk pq.2 }
    else none

/-- The base-path prefix up to and including its last `/`
(RFC 3986 path merging). -/
def upToLastSlash (p : String) : String :=
  String.mk ((p.data.reverse.dropWhile (fun c => c ≠ '/')).reverse)

/-- Resolve a relative reference `u` against parsed base `b`
(model of `new URL(u, base).toString()`). -/
def resolveRel (b : UrlParts) (u : String) : String :=
  let pq := splitAtQueryFrag u.data
  let upath := String.mk pq.1
  let usuffix := String.mk pq.2
  let newPath :=
    if strStarts upath "/" then removeDotSegments upath
    else if upath = "" then b.path
    else removeDotSegments (upToLastSlash b.path ++ upath)
  b.scheme ++ "://" ++ b.authority ++ newPath ++ usuffix

/-- Model of `toAbsolute` of `exporter_v2.js`: `null` for a falsy input, the input
itself when it is already absolute, scheme-prefixing for protocol-relative
`//…` input, and otherwise resolution against `base`.  An unparseable base
(where `new URL` would throw) yields `none`. -/
def toAbsolute (base u : String) : Option String :=
  if u = "" then none
  else if (schemeOf u).isSome then some u
  else if strStarts u "//" then (parseUrl base).map (fun b => b.scheme ++ ":" ++ u)
  else (parseUrl base).map (fun b => resolveRel b u)

/-! ### Asset type detection (`exporter_v2.js` lines 80–83)

The source tests `/\.(ext1|ext2|…)(\?|#|$)/i` anywhere in the URL. -/

/-- Does a boundary (`?`, `#`, or end of input) follow here? -/
def extBoundaryOk : List Char → Bool
  | [] => true
  | c :: _ => c = '?' || c = '#'

/-- Does `.` followed by extension `e` and a boundary start at this
position? -/
def extMatchAt (cs : List Char) (e : List Char) : Bool :=
  match cs with
  | '.' :: rest => listBegins rest e && extBoundaryOk (rest.drop e.length)
  | _ => false

/-- Scan all positions for `.e` followed by a boundary. -/
def scanForExt (e : List Char) : List Char → Bool
  | [] => false
  | c :: cs => extMatchAt (c :: cs) e || scanForExt e cs

/-- Case-insensitive test for any of the given extensions at a boundary. -/
def matchesAnyExt (exts : List String) (p : String) : Bool :=
  exts.any (fun e => scanForExt e.data (lowerStr p).data)

/-- Model of `isLikelyImage` of `exporter_v2.js`: `/\.(png|jpe?g|gif|webp|svg|avif)(\?|#|$)/i`. -/
def isLikelyImage (p : String) : Bool :=
  matchesAnyExt ["png", "jpg", "jpeg", "gif", "webp", "svg", "avif"] p

/-- Model of `isLikelyCSS` of `exporter_v2.js`: `/\.css(\?|#|$)/i`. -/
def isLikelyCSS (p : String) : Bool := matchesAnyExt ["css"] p

/-- Model of `isLikelyJS` of `exporter_v2.js`: `/\.m?js(\?|#|$)/i`. -/
def isLikelyJS (p : String) : Bool := matchesAnyExt ["js", "mjs"] p

/-! ### Download / disposition loop (`exporter_v2.js` lines 57–94 and 553–579) -/

/-- Constant `SMALL_INLINE_MAX = 5 * 1024` — inline only tiny images. -/
def SMALL_INLINE_MAX : Nat := 5 * 1024

/-- Model of `toDataUri` of `exporter_v2.js` as called in `main` (fallback extension
`png`, so an empty content type falls back to `application/octet-stream`).
The base64 rendering of the byte buffer is taken as given (`Buffer.toString`
is a platform primitive). -/
def toDataUri (b64 contentType : String) : String :=
  let ct := if contentType = "" then "application/octet-stream" else contentType
  "data:" ++ ct ++ ";base64," ++ b64

/-- Pathname used for the local copy of an asset: the URL path, with an
implicit `index.html` appended to a trailing slash (`localAssetPath` /
`relFromIndex` of `exporter_v2.js`). -/
def assetPathname (p : UrlParts) : String :=
  if strEnds p.path "/" then p.path ++ "index.html" else p.path

/-- Model of `localAssetPath` of `exporter_v2.js`: `path.join('dist/assets', pathname)`.
The `none` branch is unreachable for the hierarchical URLs the download loop
fetches. -/
def localAssetPath (absUrl : String) : String :=
  match parseUrl absUrl with
  | some p => "dist/assets" ++ assetPathname p
  | none => "dist/assets"

/-- Model of `relFromIndex` of `exporter_v2.js`: the reference written into the
document for a persisted asset. -/
def relFromIndex (absUrl : String) : String :=
  match parseUrl absUrl with
  | some p => "./assets" ++ assetPathname p
  | none => "./assets"

/-- Outcome of `download(assetUrl)` for one asset: the byte buffer (as its
base64 rendering), its length, and the reported content type. -/
structure Fetched where
  b64 : String
  size : Nat
  contentType : String
deriving DecidableEq, Repr

/-- Mutable state of the download loop in `main`: the rewrite map, the files
written under `dist/`, and the css/js/other bookkeeping lists. -/
structure ExportState where
  rewriteMap : SMap
  files : SMap
  cssFiles : List String
  jsFiles : List String
  otherFiles : List String
deriving DecidableEq, Repr

/-- One iteration of the `for (const assetUrl of combinedAssets)` loop of
`main` (`exporter_v2.js` lines 553–579).  A failed fetch (`none`) maps the
asset to its own URL; a small image is inlined as a data URI; everything else
is written to disk and mapped to its `./assets` path. -/
def processAsset (st : ExportState) (a : String × Option Fetched) : ExportState :=
  match a.2 with
  | none => { st with rewriteMap := setA st.rewriteMap a.1 a.1 }
  | some f =>
    if isLikelyImage a.1 = true ∧ f.size ≤ SMALL_INLINE_MAX then
      { st with rewriteMap := setA st.rewriteMap a.1 (toDataUri f.b64 f.contentType) }
    else
      { st with
        rewriteMap := setA st.rewriteMap a.1 (relFromIndex a.1)
        files := setA st.files (localAssetPath a.1) f.b64
        cssFiles :=
          if isLikelyCSS a.1 then st.cssFiles ++ [localAssetPath a.1] else st.cssFiles
        jsFiles :=
          if isLikelyCSS a.1 = false ∧ isLikelyJS a.1 = true then
            st.jsFiles ++ [localAssetPath a.1]
          else st.jsFiles
        otherFiles :=
          if isLikelyCSS a.1 = false ∧ isLikelyJS a.1 = false then
            st.otherFiles ++ [localAssetPath a.1]
          else st.otherFiles }

/-- The whole download loop over the deduplicated candidate set, with each
asset paired with its fetch outcome (`none` = the `catch` branch: timeout,
CORS/CORP block, DNS or connection error). -/
def processAssets (assets : List (String × Option Fetched)) : ExportState :=
  assets.foldl processAsset
    { rewriteMap := [], files := [], cssFiles := [], jsFiles := [], otherFiles := [] }

/-- The value the download loop binds to an asset URL in the rewrite map,
as a function of the fetch outcome. -/
def dispositionOf (url : String) (r : Option Fetched) : String :=
  match r with
  | none => url
  | some f =>
    if isLikelyImage url = true ∧ f.size ≤ SMALL_INLINE_MAX then
      toDataUri f.b64 f.contentType
    else relFromIndex url

/-! ### DOM rewrite pass (`exporter_v2.js` lines 497–508 and 581–620) -/

/-- Kind of a URL-bearing DOM node handled by the rewrite pass. -/
inductive TagKind
  | linkTag
  | scriptTag
  | imgTag
  | mediaTag
deriving DecidableEq, Repr

/-- A URL-bearing element: its `href`/`src` value, an `img` `data-src`
fallback, a `srcset` value, and an `integrity` attribute (`none` models an
absent attribute; `getAttribute` then returns `null`). -/
structure Elem where
  kind : TagKind
  src : Option String
  dataSrc : Option String
  srcset : Option String
  integrity : Option String
deriving DecidableEq, Repr

/-- Model of `rewriteTagUrl` of `exporter_v2.js`: resolve the attribute value, look it
up in the rewrite map, substitute on a hit, and drop `integrity` whenever the
substituted reference is a local `./assets` path.  Returns the new attribute
value and the new integrity attribute. -/
def rewriteAttr (rmap : SMap) (base : String) (val integrity : Option String) :
    Option String × Option String :=
  match val with
  | none => (none, integrity)
  | some v =>
    match toAbsolute base v with
    | none => (some v, integrity)
    | some abs =>
      match lookupA rmap abs with
      | none => (some v, integrity)
      | some mapped =>
        (some mapped, if strStarts mapped "./assets" then none else integrity)

/-- Effective image source `img.getAttribute('src') || img.getAttribute('data-src')` (JS falsiness:
`null` and the empty string both fall through). -/
def imgEffectiveSrc (src dataSrc : Option String) : Option String :=
  match src with
  | some s => if s = "" then dataSrc else some s
  | none => dataSrc

/-- JS `[mapped, w].filter(Boolean).join(' ')`. -/
def joinTruthy (l : List (Option String)) : String :=
  strJoin " " (l.filterMap (fun o =>
    match o with
    | some s => if s = "" then none else some s
    | none => none))

/-- One comma-separated `srcset` entry of the rewrite pass: trim, split on a
space into URL and descriptor, resolve and substitute the URL, re-join. -/
def rewriteSrcsetPart (rmap : SMap) (base part : String) : String :=
  let tks := strSplit ' ' (strTrim part)
  let u := tks.headD ""
  let w := (tks.drop 1).head?
  let mapped :=
    match toAbsolute base u with
    | some a =>
      match lookupA rmap a with
      | some m => m
      | none => u
    | none => u
  joinTruthy [some mapped, w]

/-- The `srcset` rewrite of `exporter_v2.js`: split on commas, rewrite each
part, re-join with `', '`. -/
def rewriteSrcset (rmap : SMap) (base s : String) : String :=
  strJoin ", " ((strSplit ',' s).map (rewriteSrcsetPart rmap base))

/-- The `img` branch of the rewrite pass (`exporter_v2.js` lines 591–605):
`src`/`data-src` fallback, `src` substitution without integrity handling,
and the `srcset` rewrite. -/
def rewriteImg (rmap : SMap) (base : String) (el : Elem) : Elem :=
  let newSrc :=
    match imgEffectiveSrc el.src el.dataSrc with
    | none => el.src
    | some v =>
      match toAbsolute base v with
      | none => el.src
      | some abs =>
        match lookupA rmap abs with
        | some m => some m
        | none => el.src
  { el with src := newSrc, srcset := el.srcset.map (rewriteSrcset rmap base) }

/-- The link/script branch of the rewrite pass (`rewriteTagUrl` on the single
URL attribute). -/
def rewriteLinkScript (rmap : SMap) (base : String) (el : Elem) : Elem :=
  let r := rewriteAttr rmap base el.src el.integrity
  { el with src := r.1, integrity := r.2 }

/-- The media/`<source>` branch of the rewrite pass: `rewriteTagUrl` on `src`
plus the `srcset` rewrite. -/
def rewriteMedia (rmap : SMap) (base : String) (el : Elem) : Elem :=
  let r := rewriteAttr rmap base el.src el.integrity
  { el with src := r.1, integrity := r.2, srcset := el.srcset.map (rewriteSrcset rmap base) }

/-- Rewrite one element according to its tag kind. -/
def rewriteElem (rmap : SMap) (base : String) (el : Elem) : Elem :=
  match el.kind with
  | TagKind.linkTag => rewriteLinkScript rmap base el
  | TagKind.scriptTag => rewriteLinkScript rmap base el
  | TagKind.imgTag => rewriteImg rmap base el
  | TagKind.mediaTag => rewriteMedia rmap base el

/-- The whole DOM rewrite pass over the document's URL-bearing elements. -/
def rewritePass (rmap : SMap) (base : String) (doc : List Elem) : List Elem :=
  doc.map (rewriteElem rmap base)

/-- Stability of one rewrite-map value under a second pass: it is non-empty
(it stays visible to the `||` fallbacks) and, when it resolves against the
base back into the map's domain, it resolves to itself.  Failed-fetch
self-mappings satisfy this by construction; `./assets` paths satisfy it
whenever their base-resolved form is not itself a mapped asset. -/
def mapValStable (rmap : SMap) (base v : String) : Bool :=
  match toAbsolute base v with
  | some b => decide (v ≠ "") && (lookupA rmap b == none || lookupA rmap b == some v)
  | none => decide (v ≠ "")

/-- Stability of every value of a rewrite map under a second pass. -/
def mapStable (rmap : SMap) (base : String) : Bool :=
  rmap.all (fun e => mapValStable rmap base e.2)

/-! ### Multi-viewport render loop (`exporter_v2.js` lines 213–356)

The headless renderer is an external collaborator; one rendering pass is
characterised by its observable outcomes: whether `page.goto` succeeds, the
URLs captured from network events, the outcome of `page.content()`, and
whether the Performance API evaluation survives (a destroyed execution
context is caught and contributes `[]`). -/

/-- Outcome of `page.content()` for a pass. -/
inductive ContentOutcome
  | ok (html : String)
  | contextDestroyed
  | failed (msg : String)
deriving DecidableEq, Repr

/-- Observable behaviour of one rendering pass. -/
structure PageBehavior where
  navOk : Bool
  reqUrls : List String
  content : ContentOutcome
  perfOk : Bool
  perfResources : List String
deriving DecidableEq, Repr

/-- Result of one successful pass: final markup and deduplicated resource
list. -/
structure RenderResult where
  html : String
  resources : List String
deriving DecidableEq, Repr

/-- The placeholder markup substituted when `page.content()` fails with a
destroyed execution context (`exporter_v2.js` line 320). -/
def placeholderHTML : String :=
  "<html><head></head><body><!-- Page content unavailable due to navigation --></body></html>"

/-- Model of `renderAndCollect` of `exporter_v2.js`: a failed `page.goto` escapes the
function (there is no catch around it — only the `finally` that closes the
page), a destroyed context during `page.content()` is caught and yields the
placeholder markup, any other `page.content()` failure is re-thrown, and the
resource set is the deduplicated union of Performance API entries and
network-captured URLs. -/
def renderAndCollect (b : PageBehavior) : Except String RenderResult :=
  if b.navOk = false then Except.error "navigation failed"
  else
    match b.content with
    | ContentOutcome.failed m => Except.error m
    | ContentOutcome.ok h =>
      Except.ok { html := h
                  resources := ((if b.perfOk then b.perfResources else []) ++ b.reqUrls).eraseDups }
    | ContentOutcome.contextDestroyed =>
      Except.ok { html := placeholderHTML
                  resources := ((if b.perfOk then b.perfResources else []) ++ b.reqUrls).eraseDups }

/-- The result `renderAndCollect` produces for a pass whose navigation
succeeds and whose content retrieval does not hard-fail. -/
def expectedRender (b : PageBehavior) : RenderResult :=
  match b.content with
  | ContentOutcome.ok h =>
    { html := h
      resources := ((if b.perfOk then b.perfResources else []) ++ b.reqUrls).eraseDups }
  | ContentOutcome.contextDestroyed =>
    { html := placeholderHTML
      resources := ((if b.perfOk then b.perfResources else []) ++ b.reqUrls).eraseDups }
  | ContentOutcome.failed _ => { html := "", resources := [] }

/-- Is the content outcome of a pass non-fatal (not a re-thrown error)? -/
def nonFatalContent : ContentOutcome → Bool
  | ContentOutcome.failed _ => false
  | _ => true

/-- Model of `renderMultiViewport` of `exporter_v2.js`: render every configured
viewport in sequence with `await renderAndCollect(...)`; an exception from
any pass propagates and aborts the whole loop (there is no try/catch around
the call). -/
def renderMultiViewport : List (String × PageBehavior) → Except String (List (String × RenderResult))
  | [] => Except.ok []
  | (n, b) :: rest =>
    match renderAndCollect b with
    | Except.error e => Except.error e
    | Except.ok r =>
      match renderMultiViewport rest with
      | Except.error e => Except.error e
      | Except.ok rs => Except.ok ((n, r) :: rs)

/-! ### Auditor usage classifier (`post-export-auditor.js` lines 250–259 and
436–497) -/

/-- One step of `path.join` segment normalisation (`.` and empty segments
dropped, `..` popping). -/
def pathSegStep (acc : List String) (s : String) : List String :=
  if s = "" then acc
  else if s = "." then acc
  else if s = ".." then acc.dropLast
  else acc ++ [s]

/-- Node `path.relative(exportDir, path.join(exportDir, p))` for a relative
path `p` that stays inside the export directory. -/
def pathNormalize (p : String) : String :=
  strJoin "/" ((strSplit '/' p).foldl pathSegStep [])

/-- Model of `url.includes('://')`. -/
def hasProtoSep (u : String) : Bool := seqOccurs "://".data u.data

/-- Model of `resolveLocalPath` of `post-export-auditor.js` composed with
`path.relative` back to an export-relative path: `./x` and `/x` are local,
any other URL without `://` is local, everything else is remote (`null`). -/
def resolveLocalPath (url : String) : Option String :=
  if strStarts url "./" then some (pathNormalize (strDrop url 2))
  else if strStarts url "/" then some (pathNormalize (strDrop url 1))
  else if hasProtoSep url then none
  else some (pathNormalize url)

/-- Model of `normalizeURL` of `post-export-auditor.js`:
`url.split('?')[0].split('#')[0]`. -/
def normalizeURL (url : String) : String :=
  (strSplit '#' ((strSplit '?' url).headD "")).headD ""

/-- Membership in the JS `Set` of used paths (`Set.has`). -/
def usedContains (used : List String) (p : String) : Bool := decide (p ∈ used)

/-- First-occurrence deduplication (building a JS `Set` from a list). -/
def dedupSeen (seen : List String) : List String → List String
  | [] => []
  | s :: rest =>
    if s ∈ seen then dedupSeen seen rest
    else s :: dedupSeen (seen ++ [s]) rest

/-- The JS `Set` of used file paths of `generateReports`: export-relative
paths of static assets with a non-null local path, plus runtime asset URLs
that start with `/`, stripped of the leading slash. -/
def usedFilesOf (staticUrls runtimeUrls : List String) : List String :=
  dedupSeen []
    ((staticUrls.filterMap resolveLocalPath) ++
      (runtimeUrls.filterMap (fun u => if strStarts u "/" then some (strDrop u 1) else none)))

/-- Model of `path.extname` of Node: extension of the last path segment, empty for a
bare or leading-dot name. -/
def extname (p : String) : String :=
  let base := (strSplit '/' p).getLastD ""
  let parts := strSplit '.' base
  if parts.length ≤ 1 then ""
  else if parts.headD "" = "" ∧ parts.length = 2 then ""
  else "." ++ parts.getLastD ""

/-- One row of `largest_unused_files` in the audit report
(`{path, size, sizeKB, extension}`). -/
structure ReportEntry where
  path : String
  size : Nat
  sizeKB : Nat
  extension : String
deriving DecidableEq, Repr

/-- Build the report row for an inventory file (relative path, byte size). -/
def entryOfFile (f : String × Nat) : ReportEntry :=
  { path := f.1, size := f.2, sizeKB := jsRound f.2 1024, extension := extname f.1 }

/-- The unused-file classification of `generateReports`: inventory entries
whose path is in the used set neither bare nor with a leading slash. -/
def unusedFilesOf (inventory : List (String × Nat)) (used : List String) : List ReportEntry :=
  (inventory.filter
    (fun f => !(usedContains used f.1 || usedContains used ("/" ++ f.1)))).map entryOfFile

/-- Byte total of the unused classification, recomputed directly from the
inventory and the used set. -/
def unusedBytesOf (inventory : List (String × Nat)) (used : List String) : Nat :=
  ((inventory.filter
    (fun f => !(usedContains used f.1 || usedContains used ("/" ++ f.1)))).map Prod.snd).sum

/-- Stable insertion into a list sorted by descending size (the JS comparator
`(a, b) => b.size - a.size`). -/
def insertDesc (e : ReportEntry) : List ReportEntry → List ReportEntry
  | [] => [e]
  | f :: rest => if f.size ≤ e.size then e :: f :: rest else f :: insertDesc e rest

/-- Model of `unusedFiles.sort((a, b) => b.size - a.size)`: stable descending sort. -/
def sortBySizeDesc : List ReportEntry → List ReportEntry
  | [] => []
  | e :: rest => insertDesc e (sortBySizeDesc rest)

/-- The `summary` object of the audit report. -/
structure AuditSummary where
  total_files : Nat
  used_files : Nat
  unused_files : Nat
  total_size_kb : Nat
  used_size_kb : Nat
  unused_size_kb : Nat
  waste_percentage : Nat
deriving DecidableEq, Repr

/-- The audit report of `generateReports`, with the byte-level intermediate
totals (`totalSize`, `usedSize`, `unusedSize` of the source) exposed next to
the rounded-KB summary. -/
structure AuditReport where
  usedPaths : List String
  unusedFiles : List ReportEntry
  totalSize : Nat
  usedSize : Nat
  unusedSize : Nat
  summary : AuditSummary
  largest_unused_files : List ReportEntry
deriving DecidableEq, Repr

/-- Model of `generateReports` of `post-export-auditor.js` (lines 436–497), taking the
file inventory (relative path, byte size), the normalised static-asset URLs,
and the runtime asset URLs.  Used size is defined as total minus unused;
the waste percentage is `Math.round((unusedSize / totalSize) * 100)` over
byte totals; `largest_unused_files` is the 10 largest unused rows. -/
def generateReport (inventory : List (String × Nat)) (staticUrls runtimeUrls : List String) :
    AuditReport :=
  let used := usedFilesOf staticUrls runtimeUrls
  let unusedSorted := sortBySizeDesc (unusedFilesOf inventory used)
  let totalSize := (inventory.map Prod.snd).sum
  let unusedSize := (unusedSorted.map ReportEntry.size).sum
  let usedSize := totalSize - unusedSize
  { usedPaths := used
    unusedFiles := unusedSorted
    totalSize := totalSize
    usedSize := usedSize
    unusedSize := unusedSize
    summary :=
      { total_files := inventory.length
        used_files := used.length
        unused_files := unusedSorted.length
        total_size_kb := jsRound totalSize 1024
        used_size_kb := jsRound usedSize 1024
        unused_size_kb := jsRound unusedSize 1024
        waste_percentage := jsRound (100 * unusedSize) totalSize }
    largest_unused_files := unusedSorted.take 10 }

/-- The waste percentage as claim C9 words it: `unused_size_kb /
total_size_kb` rounded to a whole percentage.  This follows the claim's and
the spec's wording; the source computes from byte totals instead, and the two
are compared in the theorems below. -/
def specWasteFromKB (unusedSizeKB totalSizeKB : Nat) : Nat :=
  jsRound (100 * unusedSizeKB) totalSizeKB

/-! ### Prune engine (`cleanup-unused.js` lines 39–56, `auto-export.js`
lines 157–180) -/

/-- Mutable state of a cleanup run: the mirror tree, the backup tree, and the
`deletedCount` / `savedSize` counters. -/
structure CleanupState where
  mirror : SMap
  backup : SMap
  deletedCount : Nat
  savedSize : Nat
deriving DecidableEq, Repr

/-- One iteration of the cleanup loop of `UnusedFilesCleanup.cleanup`:
if the listed file still exists, copy it (preserving its relative path) into
the backup tree, delete it from the mirror, and bump the counters; otherwise
do nothing.  There is no special case for the entry document here. -/
def UnusedFilesCleanup.processEntry (st : CleanupState) (e : ReportEntry) : CleanupState :=
  match lookupA st.mirror e.path with
  | some content =>
    { mirror := eraseA st.mirror e.path
      backup := setA st.backup e.path content
      deletedCount := st.deletedCount + 1
      savedSize := st.savedSize + e.size }
  | none => st

/-- Model of `UnusedFilesCleanup.cleanup` over the report's `largest_unused_files`
list.  `cleanupEmptyDirectories` only removes directories left empty and
never touches a file, so it does not appear in this file-level model. -/
def UnusedFilesCleanup.cleanup (mirror backup : SMap) (unusedFiles : List ReportEntry) :
    CleanupState :=
  unusedFiles.foldl UnusedFilesCleanup.processEntry
    { mirror := mirror, backup := backup, deletedCount := 0, savedSize := 0 }

/-- One iteration of the cleanup loop of `AutoExporter.step3_Cleanup`:
identical to the standalone tool except that the entry `index.html` is
skipped with `continue` before any existence check. -/
def AutoExporter.processEntry (st : CleanupState) (e : ReportEntry) : CleanupState :=
  if e.path = "index.html" then st else UnusedFilesCleanup.processEntry st e

/-- Model of `AutoExporter.step3_Cleanup` over the report's `largest_unused_files`
list. -/
def AutoExporter.step3Cleanup (mirror backup : SMap) (unusedFiles : List ReportEntry) :
    CleanupState :=
  unusedFiles.foldl AutoExporter.processEntry
    { mirror := mirror, backup := backup, deletedCount := 0, savedSize := 0 }

/-! ### Concrete inputs used by the witnesses and counterexamples below -/

/-- A two-asset batch: one large stylesheet that downloads fine and one
cross-origin script whose fetch fails. -/
def exAssetsC4 : List (String × Option Fetched) :=
  [("https://e.com/ok.css", some { b64 := "Qk9E", size := 20000, contentType := "text/css" }),
   ("https://blocked.example/x.js", none)]

/-- Three fetched images around the inline threshold: 4 KB, 6 KB, and exactly
5120 bytes. -/
def exAssetsC7 : List (String × Option Fetched) :=
  [("https://e.com/a.png", some { b64 := "QUFB", size := 4096, contentType := "image/png" }),
   ("https://e.com/b.png", some { b64 := "QkJC", size := 6144, contentType := "image/png" }),
   ("https://e.com/c.png", some { b64 := "Q0ND", size := 5120, contentType := "image/png" })]

/-- An eleven-file inventory with pairwise distinct sizes in descending
order; with an empty used set, all eleven are classified unused and only the
ten largest enter `largest_unused_files`. -/
def exInvC10 : List (String × Nat) :=
  [("f01.bin", 1100), ("f02.bin", 1000), ("f03.bin", 900), ("f04.bin", 800),
   ("f05.bin", 700), ("f06.bin", 600), ("f07.bin", 500), ("f08.bin", 400),
   ("f09.bin", 300), ("f10.bin", 200), ("f11.bin", 100)]

/-- A mirror holding the eleven inventory files. -/
def exMirrorC10 : SMap :=
  [("f01.bin", "b01"), ("f02.bin", "b02"), ("f03.bin", "b03"), ("f04.bin", "b04"),
   ("f05.bin", "b05"), ("f06.bin", "b06"), ("f07.bin", "b07"), ("f08.bin", "b08"),
   ("f09.bin", "b09"), ("f10.bin", "b10"), ("f11.bin", "b11")]

/-- Three viewport passes: the middle one loses its execution context during
content retrieval, the other two succeed. -/
def exViewportsC3 : List (String × PageBehavior) :=
  [("xs", { navOk := true, reqUrls := ["https://e.com/a.css"],
            content := ContentOutcome.ok "<html>xs</html>",
            perfOk := true, perfResources := ["https://e.com/a.css"] }),
   ("md", { navOk := true, reqUrls := ["https://e.com/b.js"],
            content := ContentOutcome.contextDestroyed,
            perfOk := false, perfResources := [] }),
   ("xl", { navOk := true, reqUrls := ["https://e.com/c.png"],
            content := ContentOutcome.ok "<html>xl</html>",
            perfOk := true, perfResources := [] })]

/-! ## Association-list lemmas -/

theorem lookupA_eraseA_self (m : SMap) (p : String) : lookupA (eraseA m p) p = none := by
  induction m with
  | nil => rfl
  | cons e rest ih =>
    obtain ⟨k, v⟩ := e
    by_cases h : k = p
    · simpa [eraseA, h] using ih
    · simpa [eraseA, lookupA, h] using ih

theorem lookupA_eraseA_ne (m : SMap) (p q : String) (h : q ≠ p) :
    lookupA (eraseA m p) q = lookupA m q := by
  induction m with
  | nil => rfl
  | cons e rest ih =>
    obtain ⟨k, v⟩ := e
    by_cases hk : k = p
    · subst hk
      have hkq : ¬(k = q) := fun hh => h (hh.symm)
      simp [eraseA, lookupA, hkq, ih]
    · by_cases hq : k = q
      · subst hq
        simp [eraseA, lookupA, hk]
      · simp [eraseA, lookupA, hk, hq, ih]

theorem lookupA_setA_self (m : SMap) (p v : String) : lookupA (setA m p v) p = some v := by
  simp [setA, lookupA]

theorem lookupA_setA_ne (m : SMap) (p v q : String) (h : q ≠ p) :
    lookupA (setA m p v) q = lookupA m q := by
  have hpq : p ≠ q := fun hh => h hh.symm
  simp [setA, lookupA, hpq, lookupA_eraseA_ne m p q h]

theorem lookupA_setA_isSome (m : SMap) (p v q : String)
    (h : (lookupA m q).isSome = true) : (lookupA (setA m p v) q).isSome = true := by
  by_cases hq : q = p
  · subst hq; simp [lookupA_setA_self]
  · rw [lookupA_setA_ne m p v q hq]; exact h

theorem lookupA_mem (m : SMap) (k v : String) (h : lookupA m k = some v) : (k, v) ∈ m := by
  induction m with
  | nil => simp [lookupA] at h
  | cons e rest ih =>
    obtain ⟨k2, v2⟩ := e
    by_cases hk : k2 = k
    · subst hk
      have hv : v2 = v := by simpa [lookupA] using h
      subst hv
      exact List.mem_cons_self _ _
    · simp only [lookupA, if_neg hk] at h
      exact List.mem_cons_of_mem _ (ih h)

/-! ## Prune-engine lemmas -/

theorem processEntry_mirror_ne (st : CleanupState) (e : ReportEntry) (p : String)
    (h : e.path ≠ p) :
    lookupA (UnusedFilesCleanup.processEntry st e).mirror p = lookupA st.mirror p := by
  unfold UnusedFilesCleanup.processEntry
  cases hl : lookupA st.mirror e.path with
  | none => rfl
  | some c => simpa using lookupA_eraseA_ne st.mirror e.path p (fun hh => h hh.symm)

theorem processEntry_backup_ne (st : CleanupState) (e : ReportEntry) (p : String)
    (h : e.path ≠ p) :
    lookupA (UnusedFilesCleanup.processEntry st e).backup p = lookupA st.backup p := by
  unfold UnusedFilesCleanup.processEntry
  cases hl : lookupA st.mirror e.path with
  | none => rfl
  | some c => simpa using lookupA_setA_ne st.backup e.path c p (fun hh => h hh.symm)

theorem processEntry_mirror_none (st : CleanupState) (e : ReportEntry) (p : String)
    (h : lookupA st.mirror p = none) :
    lookupA (UnusedFilesCleanup.processEntry st e).mirror p = none := by
  unfold UnusedFilesCleanup.processEntry
  cases hl : lookupA st.mirror e.path with
  | none => exact h
  | some c =>
    by_cases hp : p = e.path
    · simp only [hp]
      simpa using lookupA_eraseA_self st.mirror e.path
    · simpa [lookupA_eraseA_ne st.mirror e.path p hp] using h

theorem processEntry_self_gone (st : CleanupState) (e : ReportEntry) :
    lookupA (UnusedFilesCleanup.processEntry st e).mirror e.path = none := by
  unfold UnusedFilesCleanup.processEntry
  cases hl : lookupA st.mirror e.path with
  | none => exact hl
  | some c => simpa using lookupA_eraseA_self st.mirror e.path

theorem foldl_processEntry_mirror_none (l : List ReportEntry) (st : CleanupState) (p : String)
    (h : lookupA st.mirror p = none) :
    lookupA (l.foldl UnusedFilesCleanup.processEntry st).mirror p = none := by
  induction l generalizing st with
  | nil => exact h
  | cons f rest ih =>
    rw [List.foldl_cons]
    exact ih _ (processEntry_mirror_none st f p h)

theorem foldl_processEntry_gone (l : List ReportEntry) (st : CleanupState) :
    ∀ e ∈ l, lookupA (l.foldl UnusedFilesCleanup.processEntry st).mirror e.path = none := by
  induction l generalizing st with
  | nil => intro e he; cases he
  | cons f rest ih =>
    intro e he
    rw [List.foldl_cons]
    rcases List.mem_cons.mp he with rfl | hmem
    · exact foldl_processEntry_mirror_none rest _ e.path (processEntry_self_gone st e)
    · exact ih _ e hmem

theorem foldl_processEntry_no_op (l : List ReportEntry) (st : CleanupState)
    (h : ∀ e ∈ l, lookupA st.mirror e.path = none) :
    l.foldl UnusedFilesCleanup.processEntry st = st := by
  induction l with
  | nil => rfl
  | cons f rest ih =>
    have hf := h f (List.mem_cons_self _ _)
    have hstep : UnusedFilesCleanup.processEntry st f = st := by
      unfold UnusedFilesCleanup.processEntry
      rw [hf]
    rw [List.foldl_cons, hstep]
    exact ih (fun e he => h e (List.mem_cons_of_mem _ he))

theorem foldl_processEntry_deleted_le (l : List ReportEntry) (st : CleanupState) :
    (l.foldl UnusedFilesCleanup.processEntry st).deletedCount ≤ st.deletedCount + l.length := by
  induction l generalizing st with
  | nil => simp
  | cons f rest ih =>
    have hstep : (UnusedFilesCleanup.processEntry st f).deletedCount ≤ st.deletedCount + 1 := by
      unfold UnusedFilesCleanup.processEntry
      cases lookupA st.mirror f.path <;> simp
    rw [List.foldl_cons]
    have := ih (UnusedFilesCleanup.processEntry st f)
    have hlen : (f :: rest).length = rest.length + 1 := by simp
    omega

theorem foldl_processEntry_mirror_unlisted (l : List ReportEntry) (st : CleanupState) (p : String)
    (h : ∀ e ∈ l, e.path ≠ p) :
    lookupA (l.foldl UnusedFilesCleanup.processEntry st).mirror p = lookupA st.mirror p := by
  induction l generalizing st with
  | nil => rfl
  | cons f rest ih =>
    rw [List.foldl_cons, ih _ (fun e he => h e (List.mem_cons_of_mem _ he))]
    exact processEntry_mirror_ne st f p (h f (List.mem_cons_self _ _))

/-- C1 (counterexample): the claim says the entry document is never backed up
or deleted by a cleanup/prune run.  The standalone prune
`UnusedFilesCleanup.cleanup` has no entry-document guard: on a mirror whose
entry document `index.html` is listed in the report, it backs the file up and
deletes it from the mirror. -/
theorem C1_counterexample :
    lookupA (UnusedFilesCleanup.cleanup [("index.html", "<html>entry</html>")] []
      [{ path := "index.html", size := 17, sizeKB := 0, extension := ".html" }]).mirror
      "index.html" = none
    ∧ lookupA (UnusedFilesCleanup.cleanup [("index.html", "<html>entry</html>")] []
      [{ path := "index.html", size := 17, sizeKB := 0, extension := ".html" }]).backup
      "index.html" = some "<html>entry</html>" := by
  constructor <;> rfl

/-- C1 (amended): only the AutoExporter prune (`step3_Cleanup`) protects the
entry document — it skips any report entry whose path is `index.html`, so
after that prune the entry document is still present in the mirror with
unchanged contents and is absent from the backup additions; the standalone
`UnusedFilesCleanup` prune deletes a listed entry document like any other
file. -/
theorem C1_entry_document_preserved (mirror backup : SMap) (rep : List ReportEntry) :
    lookupA (AutoExporter.step3Cleanup mirror backup rep).mirror "index.html" =
      lookupA mirror "index.html"
    ∧ lookupA (AutoExporter.step3Cleanup mirror backup rep).backup "index.html" =
      lookupA backup "index.html" := by
  suffices h : ∀ (l : List ReportEntry) (st : CleanupState),
      lookupA (l.foldl AutoExporter.processEntry st).mirror "index.html" =
        lookupA st.mirror "index.html"
      ∧ lookupA (l.foldl AutoExporter.processEntry st).backup "index.html" =
        lookupA st.backup "index.html" by
    exact h rep _
  intro l
  induction l with
  | nil => intro st; exact ⟨rfl, rfl⟩
  | cons f rest ih =>
    intro st
    have hstep :
        lookupA (AutoExporter.processEntry st f).mirror "index.html" =
          lookupA st.mirror "index.html"
        ∧ lookupA (AutoExporter.processEntry st f).backup "index.html" =
          lookupA st.backup "index.html" := by
      unfold AutoExporter.processEntry
      by_cases hp : f.path = "index.html"
      · simp [hp]
      · rw [if_neg hp]
        exact ⟨processEntry_mirror_ne st f _ hp, processEntry_backup_ne st f _ hp⟩
    rw [List.foldl_cons]
    exact ⟨((ih _).1).trans hstep.1, ((ih _).2).trans hstep.2⟩

/-- C8 (confirmed): a report entry whose file is no longer present on disk
causes no backup, no delete and no counter change — a run over a report all
of whose listed files are gone returns the mirror and backup unchanged with
both counters at zero; and since a run removes every listed file that did
exist, re-running the prune on the resulting state changes neither the mirror
nor the backup and deletes nothing. -/
theorem C8_cleanup_idempotent (mirror backup : SMap) (rep : List ReportEntry)
    (h : ∀ e ∈ rep, lookupA mirror e.path = none) :
    UnusedFilesCleanup.cleanup mirror backup rep =
      { mirror := mirror, backup := backup, deletedCount := 0, savedSize := 0 }
    ∧ ∀ m b : SMap,
        UnusedFilesCleanup.cleanup (UnusedFilesCleanup.cleanup m b rep).mirror
            (UnusedFilesCleanup.cleanup m b rep).backup rep =
          { mirror := (UnusedFilesCleanup.cleanup m b rep).mirror
            backup := (UnusedFilesCleanup.cleanup m b rep).backup
            deletedCount := 0
            savedSize := 0 } := by
  constructor
  · exact foldl_processEntry_no_op rep _ h
  · intro m b
    apply foldl_processEntry_no_op rep _
    intro e he
    exact foldl_processEntry_gone rep _ e he

/-- C8 (witness): a concrete run whose single listed file is already gone is
a no-op. -/
theorem C8_cleanup_idempotent_witness :
    UnusedFilesCleanup.cleanup [("assets/a.css", "body")] []
      [{ path := "assets/gone.js", size := 9, sizeKB := 0, extension := ".js" }] =
      { mirror := [("assets/a.css", "body")], backup := [], deletedCount := 0,
        savedSize := 0 } :=
  (C8_cleanup_idempotent [("assets/a.css", "body")] []
    [{ path := "assets/gone.js", size := 9, sizeKB := 0, extension := ".js" }]
    (by decide)).1

/-- C10 (confirmed): the prune input is the report's `largest_unused_files`
list, which `generateReports` truncates to the 10 largest unused rows, so one
cleanup run deletes at most 10 files, and any mirror file not listed there —
in particular every unused file beyond the top 10 — survives the run with
unchanged contents. -/
theorem C10_at_most_ten_deletions (inv : List (String × Nat)) (su ru : List String)
    (mirror backup : SMap) :
    (UnusedFilesCleanup.cleanup mirror backup
        (generateReport inv su ru).largest_unused_files).deletedCount ≤ 10
    ∧ ∀ p : String,
        (∀ e ∈ (generateReport inv su ru).largest_unused_files, e.path ≠ p) →
        lookupA (UnusedFilesCleanup.cleanup mirror backup
            (generateReport inv su ru).largest_unused_files).mirror p = lookupA mirror p := by
  constructor
  · have hlen : (generateReport inv su ru).largest_unused_files.length ≤ 10 := by
      simp only [generateReport]
      exact List.length_take_le 10 _
    have hcnt := foldl_processEntry_deleted_le
      (generateReport inv su ru).largest_unused_files
      { mirror := mirror, backup := backup, deletedCount := 0, savedSize := 0 }
    simp only [UnusedFilesCleanup.cleanup]
    dsimp only at hcnt
    omega
  · intro p hp
    exact foldl_processEntry_mirror_unlisted _ _ p hp

/-- C10 (witness): with eleven unused files, the prune of the generated
report deletes at most ten and the smallest unused file survives with its
contents intact. -/
theorem C10_at_most_ten_deletions_witness :
    (UnusedFilesCleanup.cleanup exMirrorC10 []
        (generateReport exInvC10 [] []).largest_unused_files).deletedCount ≤ 10
    ∧ lookupA (UnusedFilesCleanup.cleanup exMirrorC10 []
        (generateReport exInvC10 [] []).largest_unused_files).mirror "f11.bin" =
      lookupA exMirrorC10 "f11.bin" :=
  ⟨(C10_at_most_ten_deletions exInvC10 [] [] exMirrorC10 []).1,
    (C10_at_most_ten_deletions exInvC10 [] [] exMirrorC10 []).2 "f11.bin" (by decide)⟩

/-! ## Auditor lemmas -/

theorem insertDesc_perm (e : ReportEntry) (l : List ReportEntry) :
    List.Perm (insertDesc e l) (e :: l) := by
  induction l with
  | nil => exact List.Perm.refl _
  | cons g rest ih =>
    unfold insertDesc
    by_cases h : g.size ≤ e.size
    · rw [if_pos h]
    · rw [if_neg h]
      exact (ih.cons g).trans (List.Perm.swap e g rest)

theorem sortBySizeDesc_perm (l : List ReportEntry) : List.Perm (sortBySizeDesc l) l := by
  induction l with
  | nil => exact List.Perm.refl _
  | cons e rest ih =>
    exact (insertDesc_perm e (sortBySizeDesc rest)).trans (ih.cons e)

theorem sum_sortBySizeDesc (l : List ReportEntry) :
    ((sortBySizeDesc l).map ReportEntry.size).sum = (l.map ReportEntry.size).sum :=
  ((sortBySizeDesc_perm l).map ReportEntry.size).sum_eq

theorem mem_unusedFiles_iff (inv : List (String × Nat)) (used : List String) (p : String) :
    p ∈ (sortBySizeDesc (unusedFilesOf inv used)).map ReportEntry.path ↔
      (p ∈ inv.map Prod.fst ∧ p ∉ used ∧ ("/" ++ p) ∉ used) := by
  rw [((sortBySizeDesc_perm (unusedFilesOf inv used)).map ReportEntry.path).mem_iff]
  unfold unusedFilesOf
  rw [List.map_map, List.mem_map]
  constructor
  · rintro ⟨f, hf, rfl⟩
    rw [List.mem_filter] at hf
    obtain ⟨hmem, hpred⟩ := hf
    have hp : ¬ (f.1 ∈ used) ∧ ¬ (("/" ++ f.1) ∈ used) := by
      simpa [usedContains] using hpred
    exact ⟨List.mem_map_of_mem Prod.fst hmem, hp.1, hp.2⟩
  · rintro ⟨hp, h1, h2⟩
    obtain ⟨f, hf, rfl⟩ := List.mem_map.mp hp
    refine ⟨f, List.mem_filter.mpr ⟨hf, ?_⟩, rfl⟩
    simpa [usedContains] using And.intro h1 h2

theorem sum_unusedFiles (inv : List (String × Nat)) (used : List String) :
    ((sortBySizeDesc (unusedFilesOf inv used)).map ReportEntry.size).sum =
      unusedBytesOf inv used := by
  rw [sum_sortBySizeDesc]
  unfold unusedFilesOf unusedBytesOf
  rw [List.map_map]
  rfl

theorem unusedBytes_le_total (inv : List (String × Nat)) (used : List String) :
    unusedBytesOf inv used ≤ (inv.map Prod.snd).sum := by
  unfold unusedBytesOf
  induction inv with
  | nil => simp
  | cons f rest ih =>
    rw [List.filter_cons]
    by_cases h : (!(usedContains used f.1 || usedContains used ("/" ++ f.1))) = true
    · rw [if_pos h]
      simpa using Nat.add_le_add_left ih f.2
    · rw [if_neg h]
      simp only [List.map_cons, List.sum_cons]
      exact le_trans ih (Nat.le_add_left _ _)

/-- C2 (counterexample): the claim says the entry document never appears in
the unused-file list.  With an inventory holding only `index.html`, no static
assets, and a runtime log containing only the root request `/` (which the
classifier strips to the empty path), `generateReports` classifies
`index.html` as unused. -/
theorem C2_counterexample :
    (generateReport [("index.html", 4096)] [] ["/"]).unusedFiles.map ReportEntry.path =
      ["index.html"]
    ∧ (generateReport [("index.html", 4096)] [] ["/"]).largest_unused_files.map
        ReportEntry.path = ["index.html"] := by
  constructor <;> rfl

/-- C2 (amended): the unused set equals the file inventory minus the used
path set (a file is unused when neither its path nor its slash-prefixed path
is in the used set) — with no unconditional exclusion of the entry document:
`index.html` is excluded exactly when some discovery mechanism put it in the
used set. -/
theorem C2_unused_eq_inventory_minus_used (inv : List (String × Nat))
    (su ru : List String) (p : String) :
    p ∈ (generateReport inv su ru).unusedFiles.map ReportEntry.path ↔
      (p ∈ inv.map Prod.fst ∧ p ∉ (generateReport inv su ru).usedPaths ∧
        ("/" ++ p) ∉ (generateReport inv su ru).usedPaths) := by
  simp only [generateReport]
  exact mem_unusedFiles_iff inv (usedFilesOf su ru) p

/-- C6 (counterexample): the claim says Essential ∪ Unused equals the full
file inventory.  With inventory `{a.png}` and a runtime-used path `b.js` that
does not exist in the inventory, the used set is `{b.js}`, the unused set is
`{a.png}`, and their union strictly exceeds the inventory. -/
theorem C6_counterexample :
    ¬ (∀ p : String,
        (p ∈ (generateReport [("a.png", 4096)] [] ["/b.js"]).usedPaths ∨
          p ∈ (generateReport [("a.png", 4096)] [] ["/b.js"]).unusedFiles.map
            ReportEntry.path) ↔
        p ∈ ([("a.png", 4096)] : List (String × Nat)).map Prod.fst) := by
  intro h
  have hb := (h "b.js").mp (Or.inl (by decide))
  revert hb
  decide

/-- C6 (amended): the unused set is always a sub-collection of the inventory
and is disjoint from the used set, and the byte sizes partition exactly (used
size is defined as total minus unused, and unused never exceeds total); but
the union property of the claim fails because the used set may contain paths
that are not in the inventory at all. -/
theorem C6_partition (inv : List (String × Nat)) (su ru : List String) :
    (∀ p : String, p ∈ (generateReport inv su ru).usedPaths →
        p ∉ (generateReport inv su ru).unusedFiles.map ReportEntry.path)
    ∧ (∀ e ∈ (generateReport inv su ru).unusedFiles, e.path ∈ inv.map Prod.fst)
    ∧ (generateReport inv su ru).usedSize + (generateReport inv su ru).unusedSize =
        (generateReport inv su ru).totalSize := by
  refine ⟨?_, ?_, ?_⟩
  · intro p hp hmem
    simp only [generateReport] at hp hmem
    exact ((mem_unusedFiles_iff inv (usedFilesOf su ru) p).mp hmem).2.1 hp
  · intro e he
    have hmem : e.path ∈ (generateReport inv su ru).unusedFiles.map ReportEntry.path :=
      List.mem_map_of_mem ReportEntry.path he
    simp only [generateReport] at hmem
    exact ((mem_unusedFiles_iff inv (usedFilesOf su ru) e.path).mp hmem).1
  · simp only [generateReport, sum_unusedFiles]
    exact Nat.sub_add_cancel (unusedBytes_le_total inv (usedFilesOf su ru))

/-- C6 (witness): on a concrete audit the size partition holds and a used
path is not listed unused. -/
theorem C6_partition_witness :
    ("b.js" ∉ (generateReport [("a.png", 4096), ("b.js", 100)] [] ["/b.js"]).unusedFiles.map
      ReportEntry.path)
    ∧ (generateReport [("a.png", 4096), ("b.js", 100)] [] ["/b.js"]).usedSize +
        (generateReport [("a.png", 4096), ("b.js", 100)] [] ["/b.js"]).unusedSize =
      (generateReport [("a.png", 4096), ("b.js", 100)] [] ["/b.js"]).totalSize :=
  ⟨(C6_partition [("a.png", 4096), ("b.js", 100)] [] ["/b.js"]).1 "b.js" (by decide),
    (C6_partition [("a.png", 4096), ("b.js", 100)] [] ["/b.js"]).2.2⟩

/-- C9 (counterexample): the claim says the reported waste percentage equals
`unused_size_kb / total_size_kb` rounded, and that this is equivalent to the
byte quotient.  The source computes from byte totals: with 1536 unused bytes
out of 2560 it reports 60 %, while the rounded-KB quotient of the same report
(2 KB of 3 KB) rounds to 67 %. -/
theorem C9_counterexample :
    (generateReport [("a", 1536), ("b", 1024)] [] ["/b"]).summary.waste_percentage = 60
    ∧ specWasteFromKB
        (generateReport [("a", 1536), ("b", 1024)] [] ["/b"]).summary.unused_size_kb
        (generateReport [("a", 1536), ("b", 1024)] [] ["/b"]).summary.total_size_kb = 67
    ∧ (60 : Nat) ≠ 67 := by
  refine ⟨rfl, rfl, by decide⟩

/-- C9 (amended): the reported waste percentage is the byte-level quotient
`unused bytes ÷ total bytes`, scaled to 100 and rounded half-up (not the
rounded-KB quotient), and it is deterministic — it depends only on the
inventory and on the used path set recomputed from the discovery inputs. -/
theorem C9_waste_from_bytes (inv : List (String × Nat)) (su ru : List String)
    (h : 0 < (inv.map Prod.snd).sum) :
    (generateReport inv su ru).summary.waste_percentage =
      jsRound (100 * unusedBytesOf inv (usedFilesOf su ru)) ((inv.map Prod.snd).sum)
    ∧ ∀ su2 ru2 : List String, usedFilesOf su2 ru2 = usedFilesOf su ru →
        (generateReport inv su2 ru2).summary.waste_percentage =
          (generateReport inv su ru).summary.waste_percentage := by
  constructor
  · simp only [generateReport, sum_unusedFiles]
  · intro su2 ru2 hu
    simp only [generateReport, hu]

/-- C9 (witness): the amended byte-level formula evaluated on the concrete
audit of the counterexample. -/
theorem C9_waste_from_bytes_witness :
    (generateReport [("a", 1536), ("b", 1024)] [] ["/b"]).summary.waste_percentage =
      jsRound (100 * unusedBytesOf [("a", 1536), ("b", 1024)] (usedFilesOf [] ["/b"]))
        (([("a", 1536), ("b", 1024)] : List (String × Nat)).map Prod.snd).sum :=
  (C9_waste_from_bytes [("a", 1536), ("b", 1024)] [] ["/b"] (by decide)).1

/-! ## Download-loop lemmas -/

theorem processAsset_rewriteMap_ne (st : ExportState) (a : String × Option Fetched)
    (u : String) (h : a.1 ≠ u) :
    lookupA (processAsset st a).rewriteMap u = lookupA st.rewriteMap u := by
  obtain ⟨url, r⟩ := a
  simp only at h
  cases r with
  | none => simpa [processAsset] using lookupA_setA_ne st.rewriteMap url url u (fun hh => h hh.symm)
  | some f =>
    by_cases hc : isLikelyImage url = true ∧ f.size ≤ SMALL_INLINE_MAX
    · simp only [processAsset, if_pos hc]
      exact lookupA_setA_ne st.rewriteMap url _ u (fun hh => h hh.symm)
    · simp only [processAsset, if_neg hc]
      exact lookupA_setA_ne st.rewriteMap url _ u (fun hh => h hh.symm)

theorem processAsset_rewriteMap_self (st : ExportState) (url : String) (r : Option Fetched) :
    lookupA (processAsset st (url, r)).rewriteMap url = some (dispositionOf url r) := by
  cases r with
  | none => simpa [processAsset, dispositionOf] using lookupA_setA_self st.rewriteMap url url
  | some f =>
    by_cases hc : isLikelyImage url = true ∧ f.size ≤ SMALL_INLINE_MAX
    · simp only [processAsset, dispositionOf, if_pos hc]
      exact lookupA_setA_self st.rewriteMap url _
    · simp only [processAsset, dispositionOf, if_neg hc]
      exact lookupA_setA_self st.rewriteMap url _

theorem processAsset_rewriteMap_isSome (st : ExportState) (a : String × Option Fetched)
    (u : String) (h : (lookupA st.rewriteMap u).isSome = true) :
    (lookupA (processAsset st a).rewriteMap u).isSome = true := by
  obtain ⟨url, r⟩ := a
  cases r with
  | none => simpa [processAsset] using lookupA_setA_isSome st.rewriteMap url url u h
  | some f =>
    by_cases hc : isLikelyImage url = true ∧ f.size ≤ SMALL_INLINE_MAX
    · simp only [processAsset, if_pos hc]
      exact lookupA_setA_isSome st.rewriteMap url _ u h
    · simp only [processAsset, if_neg hc]
      exact lookupA_setA_isSome st.rewriteMap url _ u h

theorem processAsset_files_isSome (st : ExportState) (a : String × Option Fetched)
    (q : String) (h : (lookupA st.files q).isSome = true) :
    (lookupA (processAsset st a).files q).isSome = true := by
  obtain ⟨url, r⟩ := a
  cases r with
  | none => simpa [processAsset] using h
  | some f =>
    by_cases hc : isLikelyImage url = true ∧ f.size ≤ SMALL_INLINE_MAX
    · simpa only [processAsset, if_pos hc] using h
    · simp only [processAsset, if_neg hc]
      exact lookupA_setA_isSome st.files (localAssetPath url) f.b64 q h

theorem foldl_processAsset_rewriteMap_ne (l : List (String × Option Fetched))
    (st : ExportState) (u : String) (h : ∀ a ∈ l, a.1 ≠ u) :
    lookupA (l.foldl processAsset st).rewriteMap u = lookupA st.rewriteMap u := by
  induction l generalizing st with
  | nil => rfl
  | cons a rest ih =>
    rw [List.foldl_cons, ih _ (fun b hb => h b (List.mem_cons_of_mem _ hb))]
    exact processAsset_rewriteMap_ne st a u (h a (List.mem_cons_self _ _))

theorem foldl_processAsset_rewriteMap_isSome (l : List (String × Option Fetched))
    (st : ExportState) (u : String) (h : (lookupA st.rewriteMap u).isSome = true) :
    (lookupA (l.foldl processAsset st).rewriteMap u).isSome = true := by
  induction l generalizing st with
  | nil => exact h
  | cons a rest ih =>
    rw [List.foldl_cons]
    exact ih _ (processAsset_rewriteMap_isSome st a u h)

theorem foldl_processAsset_files_isSome (l : List (String × Option Fetched))
    (st : ExportState) (q : String) (h : (lookupA st.files q).isSome = true) :
    (lookupA (l.foldl processAsset st).files q).isSome = true := by
  induction l generalizing st with
  | nil => exact h
  | cons a rest ih =>
    rw [List.foldl_cons]
    exact ih _ (processAsset_files_isSome st a q h)

theorem processAssets_lookup (assets : List (String × Option Fetched)) (url : String)
    (r : Option Fetched) (hnod : (assets.map Prod.fst).Nodup)
    (hmem : (url, r) ∈ assets) :
    lookupA (processAssets assets).rewriteMap url = some (dispositionOf url r) := by
  obtain ⟨s, t, rfl⟩ := List.append_of_mem hmem
  have hnt : url ∉ t.map Prod.fst := by
    rw [List.map_append, List.map_cons] at hnod
    have h3 := hnod.of_append_right
    rw [List.nodup_cons] at h3
    exact h3.1
  unfold processAssets
  rw [List.foldl_append, List.foldl_cons]
  rw [foldl_processAsset_rewriteMap_ne t _ url
    (fun a ha hh => hnt (hh ▸ List.mem_map_of_mem Prod.fst ha))]
  exact processAsset_rewriteMap_self _ url r

theorem processAssets_all_isSome (assets : List (String × Option Fetched)) :
    ∀ a ∈ assets, (lookupA (processAssets assets).rewriteMap a.1).isSome = true := by
  intro a ha
  obtain ⟨s, t, rfl⟩ := List.append_of_mem ha
  unfold processAssets
  rw [List.foldl_append, List.foldl_cons]
  apply foldl_processAsset_rewriteMap_isSome
  obtain ⟨url, r⟩ := a
  rw [processAsset_rewriteMap_self _ url r]
  rfl

theorem processAssets_files_persisted (assets : List (String × Option Fetched))
    (url : String) (f : Fetched) (hmem : (url, some f) ∈ assets)
    (hc : ¬ (isLikelyImage url = true ∧ f.size ≤ SMALL_INLINE_MAX)) :
    (lookupA (processAssets assets).files (localAssetPath url)).isSome = true := by
  obtain ⟨s, t, rfl⟩ := List.append_of_mem hmem
  unfold processAssets
  rw [List.foldl_append, List.foldl_cons]
  apply foldl_processAsset_files_isSome
  simp only [processAsset, if_neg hc]
  rw [lookupA_setA_self]
  rfl

/-- C4 (confirmed): an asset whose fetch fails is bound in the resolution map
to its own original absolute URL; any reference resolving to that asset is
rewritten to exactly that original absolute URL with its integrity attribute
untouched (in particular a reference that already is the absolute URL is
unchanged — not removed, not inlined); and the failure does not abort the
batch: every asset of the batch still receives a resolution-map entry. -/
theorem C4_failed_fetch_keeps_original_url (assets : List (String × Option Fetched))
    (base url : String)
    (hnod : (assets.map Prod.fst).Nodup)
    (hmem : (url, (none : Option Fetched)) ∈ assets)
    (hloc : strStarts url "./assets" = false) :
    lookupA (processAssets assets).rewriteMap url = some url
    ∧ (∀ v i, toAbsolute base v = some url →
        rewriteAttr (processAssets assets).rewriteMap base (some v) i = (some url, i))
    ∧ (∀ a ∈ assets, (lookupA (processAssets assets).rewriteMap a.1).isSome = true) := by
  have h1 : lookupA (processAssets assets).rewriteMap url = some url :=
    processAssets_lookup assets url none hnod hmem
  refine ⟨h1, ?_, processAssets_all_isSome assets⟩
  intro v i hv
  simp [rewriteAttr, hv, h1, hloc]

/-- C4 (witness): a concrete two-asset batch where the second fetch is
blocked cross-origin. -/
theorem C4_failed_fetch_keeps_original_url_witness :
    lookupA (processAssets exAssetsC4).rewriteMap "https://blocked.example/x.js" =
      some "https://blocked.example/x.js"
    ∧ rewriteAttr (processAssets exAssetsC4).rewriteMap "https://e.com/"
        (some "https://blocked.example/x.js") (some "sha384-abc") =
      (some "https://blocked.example/x.js", some "sha384-abc")
    ∧ (lookupA (processAssets exAssetsC4).rewriteMap "https://e.com/ok.css").isSome = true := by
  have h := C4_failed_fetch_keeps_original_url exAssetsC4 "https://e.com/"
    "https://blocked.example/x.js" (by decide) (by decide) (by decide)
  exact ⟨h.1, h.2.1 "https://blocked.example/x.js" (some "sha384-abc") (by decide),
    h.2.2 ("https://e.com/ok.css",
      some { b64 := "Qk9E", size := 20000, contentType := "text/css" }) (by decide)⟩

/-- C7 (confirmed): the inline threshold is 5 KB = 5120 bytes, and for a
fetched image the disposition is: inline data payload exactly when the byte
size is at most 5120 (boundary inclusive), and otherwise the bytes are
persisted under the asset directory and the reference becomes the local
`./assets` path. -/
theorem C7_inline_threshold (assets : List (String × Option Fetched)) (url : String)
    (f : Fetched)
    (hnod : (assets.map Prod.fst).Nodup)
    (hmem : (url, some f) ∈ assets)
    (himg : isLikelyImage url = true) :
    SMALL_INLINE_MAX = 5120
    ∧ lookupA (processAssets assets).rewriteMap url =
        some (if f.size ≤ 5120 then toDataUri f.b64 f.contentType else relFromIndex url)
    ∧ (5120 < f.size →
        (lookupA (processAssets assets).files (localAssetPath url)).isSome = true) := by
  refine ⟨rfl, ?_, ?_⟩
  · have h1 := processAssets_lookup assets url (some f) hnod hmem
    rw [h1]
    have hd : dispositionOf url (some f) =
        if f.size ≤ 5120 then toDataUri f.b64 f.contentType else relFromIndex url := by
      simp only [dispositionOf, SMALL_INLINE_MAX, himg, true_and]
    rw [hd]
  · intro hbig
    apply processAssets_files_persisted assets url f hmem
    intro hh
    have : f.size ≤ 5120 := hh.2
    omega

/-- C7 (witness): 4096 bytes is inlined, 6144 bytes is persisted as a local
reference with its file written, and the boundary value 5120 is inlined. -/
theorem C7_inline_threshold_witness :
    lookupA (processAssets exAssetsC7).rewriteMap "https://e.com/a.png" =
      some (toDataUri "QUFB" "image/png")
    ∧ lookupA (processAssets exAssetsC7).rewriteMap "https://e.com/b.png" =
      some (relFromIndex "https://e.com/b.png")
    ∧ (lookupA (processAssets exAssetsC7).files (localAssetPath "https://e.com/b.png")).isSome
        = true
    ∧ lookupA (processAssets exAssetsC7).rewriteMap "https://e.com/c.png" =
      some (toDataUri "Q0ND" "image/png") := by
  have ha := C7_inline_threshold exAssetsC7 "https://e.com/a.png"
    { b64 := "QUFB", size := 4096, contentType := "image/png" }
    (by decide) (by decide) (by decide)
  have hb := C7_inline_threshold exAssetsC7 "https://e.com/b.png"
    { b64 := "QkJC", size := 6144, contentType := "image/png" }
    (by decide) (by decide) (by decide)
  have hc := C7_inline_threshold exAssetsC7 "https://e.com/c.png"
    { b64 := "Q0ND", size := 5120, contentType := "image/png" }
    (by decide) (by decide) (by decide)
  refine ⟨?_, ?_, hb.2.2 (by decide), ?_⟩
  · simpa using ha.2.1
  · simpa using hb.2.1
  · simpa using hc.2.1

/-! ## Render-loop lemmas -/

theorem renderMulti_all_ok :
    ∀ (l : List (String × PageBehavior)),
      l.all (fun p => p.2.navOk && nonFatalContent p.2.content) = true →
      renderMultiViewport l = Except.ok (l.map (fun p => (p.1, expectedRender p.2)))
  | [], _ => rfl
  | (n, b) :: rest, h => by
    simp only [List.all_cons, Bool.and_eq_true] at h
    obtain ⟨⟨hnav, hc⟩, hrest⟩ := h
    have hrc : renderAndCollect b = Except.ok (expectedRender b) := by
      unfold renderAndCollect expectedRender
      rw [hnav]
      cases hcc : b.content with
      | ok html => simp
      | contextDestroyed => simp
      | failed m =>
        rw [hcc] at hc
        simp [nonFatalContent] at hc
    unfold renderMultiViewport
    rw [hrc, renderMulti_all_ok rest hrest]
    rfl

/-- C3 (counterexample): the claim says a viewport pass whose navigation
fails contributes an empty result while the remaining viewports are still
captured.  In `renderMultiViewport` of the exporter there is no catch around
`renderAndCollect`, whose `page.goto` failure therefore escapes: with a first
viewport that fails to navigate and a healthy second viewport, the whole run
aborts with an error and no viewport result at all is produced. -/
theorem C3_counterexample :
    renderMultiViewport
      [("xs", { navOk := false, reqUrls := [], content := ContentOutcome.ok "<html></html>",
                perfOk := true, perfResources := [] }),
       ("xl", { navOk := true, reqUrls := ["https://e.com/d.js"],
                content := ContentOutcome.ok "<html>xl</html>",
                perfOk := true, perfResources := [] })] =
      Except.error "navigation failed" := by
  rfl

/-- C3 (amended): the failure containment the exporter actually provides is
at the content-retrieval step, not at navigation: when every pass navigates
successfully and none hard-fails content retrieval, the run captures every
viewport in sequence, and a pass whose execution context is destroyed during
`page.content()` contributes the placeholder empty-body markup (with its
collected resource set) for that viewport only; a navigation failure instead
aborts the entire multi-viewport run. -/
theorem C3_context_failures_contained (vps : List (String × PageBehavior))
    (h : vps.all (fun p => p.2.navOk && nonFatalContent p.2.content) = true) :
    renderMultiViewport vps = Except.ok (vps.map (fun p => (p.1, expectedRender p.2)))
    ∧ ∀ p ∈ vps, p.2.content = ContentOutcome.contextDestroyed →
        (expectedRender p.2).html = placeholderHTML := by
  refine ⟨renderMulti_all_ok vps h, ?_⟩
  intro p hp hcc
  simp [expectedRender, hcc]

/-- C3 (witness): three viewports, the middle one losing its execution
context at content retrieval — all three are captured and the middle one
carries the placeholder markup. -/
theorem C3_context_failures_contained_witness :
    renderMultiViewport exViewportsC3 =
      Except.ok
        [("xs", { html := "<html>xs</html>", resources := ["https://e.com/a.css"] }),
         ("md", { html := placeholderHTML, resources := ["https://e.com/b.js"] }),
         ("xl", { html := "<html>xl</html>", resources := ["https://e.com/c.png"] })] := by
  have h := (C3_context_failures_contained exViewportsC3 (by decide)).1
  exact h.trans (by rfl)

/-! ## Rewrite-pass lemmas -/

theorem mapStable_value (rmap : SMap) (base abs m : String)
    (hm : mapStable rmap base = true) (h : lookupA rmap abs = some m) :
    mapValStable rmap base m = true := by
  have hmem := lookupA_mem rmap abs m h
  have := List.all_eq_true.mp hm (abs, m) hmem
  simpa using this

theorem rewriteAttr_idem (rmap : SMap) (base : String)
    (hm : mapStable rmap base = true) (v i : Option String) :
    rewriteAttr rmap base (rewriteAttr rmap base v i).1 (rewriteAttr rmap base v i).2 =
      rewriteAttr rmap base v i := by
  cases v with
  | none => rfl
  | some s =>
    cases h1 : toAbsolute base s with
    | none => simp [rewriteAttr, h1]
    | some abs =>
      cases h2 : lookupA rmap abs with
      | none => simp [rewriteAttr, h1, h2]
      | some m =>
        have hst := mapStable_value rmap base abs m hm h2
        simp only [rewriteAttr, h1, h2]
        unfold mapValStable at hst
        cases h3 : toAbsolute base m with
        | none => simp [h3]
        | some b =>
          rw [h3] at hst
          simp only [Bool.and_eq_true, Bool.or_eq_true, decide_eq_true_eq,
            beq_iff_eq] at hst
          rcases hst.2 with h4 | h4
          · simp [h3, h4]
          · simp only [h3, h4]
            by_cases h5 : strStarts m "./assets" = true <;> simp [h5]

theorem rewriteLinkScript_idem (rmap : SMap) (base : String) (el : Elem)
    (hm : mapStable rmap base = true) :
    rewriteLinkScript rmap base (rewriteLinkScript rmap base el) =
      rewriteLinkScript rmap base el := by
  obtain ⟨k, src, ds, ss, ig⟩ := el
  simp only [rewriteLinkScript]
  rw [rewriteAttr_idem rmap base hm src ig]

theorem rewriteMedia_idem (rmap : SMap) (base : String) (el : Elem)
    (hm : mapStable rmap base = true) (hs : el.srcset = none) :
    rewriteMedia rmap base (rewriteMedia rmap base el) = rewriteMedia rmap base el := by
  obtain ⟨k, src, ds, ss, ig⟩ := el
  simp only at hs
  subst hs
  simp only [rewriteMedia, Option.map_none']
  rw [rewriteAttr_idem rmap base hm src ig]

theorem rewriteImg_idem (rmap : SMap) (base : String) (el : Elem)
    (hm : mapStable rmap base = true) (hs : el.srcset = none) :
    rewriteImg rmap base (rewriteImg rmap base el) = rewriteImg rmap base el := by
  obtain ⟨k, src, ds, ss, ig⟩ := el
  simp only at hs
  subst hs
  cases he : imgEffectiveSrc src ds with
  | none => simp [rewriteImg, he]
  | some v =>
    cases h1 : toAbsolute base v with
    | none => simp [rewriteImg, he, h1]
    | some abs =>
      cases h2 : lookupA rmap abs with
      | none => simp [rewriteImg, he, h1, h2]
      | some m =>
        have hst := mapStable_value rmap base abs m hm h2
        unfold mapValStable at hst
        cases h3 : toAbsolute base m with
        | none =>
          rw [h3] at hst
          have hne : ¬ (m = "") := by simpa using hst
          have he2 : imgEffectiveSrc (some m) ds = some m := by
            simp [imgEffectiveSrc, hne]
          simp [rewriteImg, he, h1, h2, he2, h3]
        | some b =>
          rw [h3] at hst
          simp only [Bool.and_eq_true, Bool.or_eq_true, decide_eq_true_eq,
            beq_iff_eq] at hst
          have he2 : imgEffectiveSrc (some m) ds = some m := by
            simp [imgEffectiveSrc, hst.1]
          rcases hst.2 with h4 | h4
          · simp [rewriteImg, he, h1, h2, he2, h3, h4]
          · simp [rewriteImg, he, h1, h2, he2, h3, h4]

theorem rewriteElem_idem (rmap : SMap) (base : String) (el : Elem)
    (hm : mapStable rmap base = true) (hs : el.srcset = none) :
    rewriteElem rmap base (rewriteElem rmap base el) = rewriteElem rmap base el := by
  obtain ⟨k, src, ds, ss, ig⟩ := el
  cases k with
  | linkTag => exact rewriteLinkScript_idem rmap base _ hm
  | scriptTag => exact rewriteLinkScript_idem rmap base _ hm
  | imgTag => exact rewriteImg_idem rmap base _ hm hs
  | mediaTag => exact rewriteMedia_idem rmap base _ hm hs

/-- C5 (counterexample): the claim says applying the rewrite pass twice is
byte-identical to applying it once.  With a resolution map that inlines
`a.png` as a data URI and a document whose `img` carries a one-entry
`srcset`, the second pass splits the data URI at its embedded comma and
re-joins with `', '`, changing the serialized attribute. -/
theorem C5_counterexample :
    rewritePass [("https://e.com/a.png", "data:image/png;base64,AAAA")] "https://e.com/"
      (rewritePass [("https://e.com/a.png", "data:image/png;base64,AAAA")] "https://e.com/"
        [{ kind := TagKind.imgTag, src := some "https://e.com/a.png", dataSrc := none,
           srcset := some "https://e.com/a.png 1x", integrity := none }]) ≠
    rewritePass [("https://e.com/a.png", "data:image/png;base64,AAAA")] "https://e.com/"
      [{ kind := TagKind.imgTag, src := some "https://e.com/a.png", dataSrc := none,
         srcset := some "https://e.com/a.png 1x", integrity := none }] := by
  decide

/-- C5 (amended): the rewrite pass is idempotent on the `href`/`src`
attributes (including the integrity removal), and hence on every document
without `srcset` attributes, provided the map's values are stable under a
second resolution — each non-empty mapped value that resolves back into the
map's domain resolves to itself, as failed-fetch self-mappings do by
construction.  The `srcset` handling is the exception the counterexample
exhibits: an entry rewritten to an inline data payload is corrupted by a
second pass. -/
theorem C5_rewrite_idempotent_without_srcset (rmap : SMap) (base : String) (doc : List Elem)
    (hm : mapStable rmap base = true)
    (hs : ∀ el ∈ doc, el.srcset = none) :
    rewritePass rmap base (rewritePass rmap base doc) = rewritePass rmap base doc := by
  unfold rewritePass
  rw [List.map_map]
  apply List.map_congr_left
  intro el hel
  exact rewriteElem_idem rmap base el hm (hs el hel)

/-- C5 (witness): one script tag with an integrity attribute, rewritten to a
local path by a stable map — the second pass changes nothing. -/
theorem C5_rewrite_idempotent_without_srcset_witness :
    rewritePass [("https://e.com/app.js", "./assets/app.js")] "https://e.com/"
      (rewritePass [("https://e.com/app.js", "./assets/app.js")] "https://e.com/"
        [{ kind := TagKind.scriptTag, src := some "https://e.com/app.js", dataSrc := none,
           srcset := none, integrity := some "sha256-abc" }]) =
    rewritePass [("https://e.com/app.js", "./assets/app.js")] "https://e.com/"
      [{ kind := TagKind.scriptTag, src := some "https://e.com/app.js", dataSrc := none,
         srcset := none, integrity := some "sha256-abc" }] :=
  C5_rewrite_idempotent_without_srcset _ _ _ (by decide) (by decide)

/-- C1 (amended, witness): on a concrete mirror whose report lists both the
entry document and a stylesheet, the AutoExporter prune leaves `index.html`
in place and out of the backup. -/
theorem C1_entry_document_preserved_witness :
    lookupA (AutoExporter.step3Cleanup [("index.html", "E"), ("a.css", "X")] []
        [{ path := "index.html", size := 1, sizeKB := 0, extension := ".html" },
         { path := "a.css", size := 1, sizeKB := 0, extension := ".css" }]).mirror
      "index.html" =
      lookupA [("index.html", "E"), ("a.css", "X")] "index.html"
    ∧ lookupA (AutoExporter.step3Cleanup [("index.html", "E"), ("a.css", "X")] []
        [{ path := "index.html", size := 1, sizeKB := 0, extension := ".html" },
         { path := "a.css", size := 1, sizeKB := 0, extension := ".css" }]).backup
      "index.html" =
      lookupA [] "index.html" :=
  C1_entry_document_preserved [("index.html", "E"), ("a.css", "X")] []
    [{ path := "index.html", size := 1, sizeKB := 0, extension := ".html" },
     { path := "a.css", size := 1, sizeKB := 0, extension := ".css" }]

/-- C2 (amended, witness): a file referenced by no discovery mechanism is in
the unused list of a concrete report, by the set equation. -/
theorem C2_unused_eq_inventory_minus_used_witness :
    "style.css" ∈ (generateReport [("style.css", 10)] [] []).unusedFiles.map
      ReportEntry.path :=
  (C2_unused_eq_inventory_minus_used [("style.css", 10)] [] [] "style.css").mpr
    ⟨by decide, by decide, by decide⟩
